import Mathlib

/-!
Verification of the in-memory rate limiter and of the summarization
endpoint glue of the alzheimer-abstract-summarizer repository.

The rate limiter (src/lib/rate-limit.ts) keeps a process-wide table from
client key to an entry holding the request count of the current window and
the absolute time at which that window resets.  The stateful TypeScript
functions are embedded as pure functions: `isRateLimited` takes the current
time (`Date.now()`, in milliseconds), the key and the table and returns the
decision together with the updated table; `cleanupExpiredEntries` takes the
current time and the table and returns the swept table.  The endpoint
handler (src/app/api/summarize/route.ts) is embedded as a pure function
over the decoded request, the table, the token configuration and an oracle
for the downstream Hugging Face inference call.
-/

/-- One entry of the rate-limit table (interface `RateLimitEntry`):
`count` requests seen in the current window, which resets at absolute time
`resetAt` in milliseconds. -/
structure RateLimitEntry where
  count : Nat
  resetAt : Nat
  deriving DecidableEq, Repr

/-- The rate-limit table (`rateLimitStore : Map<string, RateLimitEntry>`),
modelled as a partial map from keys to entries. -/
def Store : Type := String → Option RateLimitEntry

/-- `rateLimitStore.set(k, v)` on the map model. -/
def Store.set (s : Store) (k : String) (v : RateLimitEntry) : Store :=
  fun q => if q = k then some v else s q

/-- The table of a freshly started process: no entries. -/
def emptyStore : Store := fun _ => none

/-- `MAX_REQUESTS` from src/lib/rate-limit.ts. -/
def MAX_REQUESTS : Nat := 10

/-- `WINDOW_MS` from src/lib/rate-limit.ts (one minute in milliseconds). -/
def WINDOW_MS : Nat := 60 * 1000

/-- `isRateLimited(ip)` from src/lib/rate-limit.ts, with the implicit
`Date.now()` and the implicit `rateLimitStore` made explicit.  Returns the
boolean result (`true` means "limited") and the updated table.  If no entry
exists or `now > entry.resetAt`, a fresh entry `{count: 1, resetAt: now +
WINDOW_MS}` is installed and the call is admitted; otherwise the count is
incremented and the call is limited exactly when the new count exceeds
`MAX_REQUESTS`. -/
def isRateLimited (now : Nat) (ip : String) (store : Store) : Bool × Store :=
  match store ip with
  | none => (false, store.set ip ⟨1, now + WINDOW_MS⟩)
  | some entry =>
    if entry.resetAt < now then
      (false, store.set ip ⟨1, now + WINDOW_MS⟩)
    else
      (decide (MAX_REQUESTS < entry.count + 1), store.set ip ⟨entry.count + 1, entry.resetAt⟩)

/-- `cleanupExpiredEntries()` from src/lib/rate-limit.ts, with `Date.now()`
and the table made explicit: deletes every entry with `now > entry.resetAt`. -/
def cleanupExpiredEntries (now : Nat) (store : Store) : Store :=
  fun k =>
    match store k with
    | none => none
    | some e => if e.resetAt < now then none else some e

/-- A sequence of `isRateLimited` calls for one key at the given times,
threading the table through; returns the list of decisions and the final
table. -/
def runCalls : List Nat → String → Store → List Bool × Store
  | [], _, s => ([], s)
  | t :: ts, ip, s =>
    let r := isRateLimited t ip s
    let rest := runCalls ts ip r.2
    (r.1 :: rest.1, rest.2)

/-- JavaScript `s.split(',')[0]`: the prefix of `s` before its first comma
(the whole of `s` when it has no comma). -/
def jsSplitFirst (s : String) : String :=
  String.mk (s.data.takeWhile (fun c => c != ','))

/-- JavaScript `s.trim()`: `s` without leading and trailing whitespace. -/
def jsTrim (s : String) : String :=
  String.mk (((s.data.dropWhile Char.isWhitespace).reverse.dropWhile Char.isWhitespace).reverse)

/-- `getClientIp(request)` from src/app/api/summarize/route.ts, over the two
headers it reads (`none` = header absent).  JavaScript truthiness on a
string is non-emptiness, so a present-but-empty header falls through. -/
def getClientIp (forwardedFor realIp : Option String) : String :=
  if forwardedFor.getD ("") ≠ "" then
    jsTrim (jsSplitFirst (forwardedFor.getD ("")))
  else if realIp.getD ("") ≠ "" then
    realIp.getD ("")
  else
    "unknown"

/-- One candidate object of the Hugging Face reply (`HFGenerated`): the
optional `generated_text` and `summary_text` fields. -/
structure HFGenerated where
  genText : Option String
  sumText : Option String
  deriving DecidableEq, Repr

/-- The JSON shape of the Hugging Face reply body after `JSON.parse`:
a parse failure, an array of candidates, a single candidate object, or any
other JSON value (null, number, string, ...). -/
inductive HFBody where
  | unparseable : HFBody
  | arr : List HFGenerated → HFBody
  | obj : HFGenerated → HFBody
  | other : HFBody
  deriving DecidableEq, Repr

/-- The observable outcome of the `fetch` to the Hugging Face router:
`ok` mirrors `hfResponse.ok`, `status` the HTTP status, and `body` the
parse of the response text. -/
structure HFReply where
  ok : Bool
  status : Nat
  body : HFBody
  deriving DecidableEq, Repr

/-- `pickText(obj)` from the route: `obj?.generated_text ||
obj?.summary_text`, where JavaScript `||` skips a falsy (empty) string. -/
def pickText (o : HFGenerated) : Option String :=
  match o.genText with
  | some s => if s = "" then o.sumText else some s
  | none => o.sumText

/-- The decoded inbound request: the two address headers and the `abstract`
field of the JSON body (`some a` exactly when the body parsed to an object
whose `abstract` field is the string `a`; `none` covers an unparseable body
and a missing or non-string field, both of which fail the zod schema). -/
structure ApiRequest where
  forwardedFor : Option String
  realIp : Option String
  abstractField : Option String
  deriving DecidableEq, Repr

/-- The observable outcome of one `POST /api/summarize` call: HTTP status,
the `error` field of the JSON response if any, the `summary` field if any,
and two instrumentation flags recording whether the zod validation ran
(`validated`) and whether the Hugging Face service was called (`hfCalled`). -/
structure PostResult where
  status : Nat
  error : Option String
  summary : Option String
  hfCalled : Bool
  validated : Bool
  deriving DecidableEq, Repr

/-- The prompt sent to the model, as built in the route. -/
def promptFor (abstract : String) : String :=
  "Summarize the following abstract in 2-3 sentences, focusing ONLY on the main results and conclusions. Do NOT add information that is not present in the abstract.\n\n" ++ abstract

/-- Shared tail of the route: turn the extracted `summary` candidate into
the final response (`!summary` rejects both `undefined` and the empty
string). -/
def summaryResponse (msum : Option String) (st : Store) : PostResult × Store :=
  match msum with
  | some s =>
    if s = "" then
      ({ status := 500, error := some ("Invalid response from summarization service"),
         summary := none, hfCalled := true, validated := true }, st)
    else
      ({ status := 200, error := none, summary := some s,
         hfCalled := true, validated := true }, st)
  | none =>
    ({ status := 500, error := some ("Invalid response from summarization service"),
       summary := none, hfCalled := true, validated := true }, st)

/-- `POST(request)` from src/app/api/summarize/route.ts: rate limiting,
body validation, token check, Hugging Face call and reply handling, with
`Date.now()`, the table, `process.env.HF_API_TOKEN` and the network made
explicit (`hf` is the oracle for the downstream call). -/
def POST (now : Nat) (req : ApiRequest) (store : Store) (hfToken : Option String)
    (hf : String → HFReply) : PostResult × Store :=
  let clientIp := getClientIp req.forwardedFor req.realIp
  let res := isRateLimited now clientIp store
  if res.1 then
    ({ status := 429, error := some ("Too many requests. Please try again later."),
       summary := none, hfCalled := false, validated := false }, res.2)
  else
    match req.abstractField with
    | none =>
      ({ status := 400, error := some ("abstract is required"),
         summary := none, hfCalled := false, validated := true }, res.2)
    | some a =>
      if a.length < 1 then
        ({ status := 400, error := some ("abstract is required"),
           summary := none, hfCalled := false, validated := true }, res.2)
      else
        match hfToken with
        | none =>
          ({ status := 500, error := some ("Service configuration error"),
             summary := none, hfCalled := false, validated := true }, res.2)
        | some _ =>
          let reply := hf (promptFor a)
          if reply.ok then
            match reply.body with
            | HFBody.unparseable =>
              ({ status := 500, error := some ("Failed to parse Hugging Face response"),
                 summary := none, hfCalled := true, validated := true }, res.2)
            | HFBody.arr items => summaryResponse (items.head?.bind pickText) res.2
            | HFBody.obj o => summaryResponse (pickText o) res.2
            | HFBody.other => summaryResponse none res.2
          else
            ({ status := 500, error := some ("Hugging Face API error"),
               summary := none, hfCalled := true, validated := true }, res.2)

/-- The table invariant of claim C10: every entry present has a count of at
least 1. -/
def TableInv (s : Store) : Prop :=
  ∀ k e, s k = some e → 1 ≤ e.count

/-- A key's window is freshly started at time `t` when the key has no entry
or only an expired one (the reset branch of `isRateLimited` fires). -/
def FreshStart (s : Store) (ip : String) (t : Nat) : Prop :=
  s ip = none ∨ ∃ e, s ip = some e ∧ e.resetAt < t

/-- Concrete table: one key whose window ends exactly at time 60000 with the
count already at the limit. -/
def c2Store : Store := fun k => if k = "1.2.3.4" then some ⟨10, 60000⟩ else none

/-- Concrete table: one key whose window ends exactly at time 60000. -/
def c3Store : Store := fun k => if k = "5.5.5.5" then some ⟨3, 60000⟩ else none

/-- Concrete table: one key already over the limit in an active window. -/
def c4Store : Store := fun k => if k = "3.3.3.3" then some ⟨15, 60000⟩ else none

/-- Concrete table: one key whose window expired at time 1. -/
def c5Store : Store := fun k => if k = "6.6.6.6" then some ⟨4, 1⟩ else none

/-- Concrete table: one key at the limit in an active window. -/
def c6StoreB : Store := fun k => if k = "18.18.18.18" then some ⟨10, 60000⟩ else none

/-- Concrete table: one exhausted key for the endpoint witness. -/
def c9Store : Store := fun k => if k = "8.8.8.8" then some ⟨10, 60000⟩ else none

/-- Concrete decoded request for the endpoint witness. -/
def c9Req : ApiRequest :=
  { forwardedFor := some ("8.8.8.8"), realIp := none,
    abstractField := some ("Amyloid beta findings in a mouse model.") }

/-- Concrete downstream oracle for the endpoint witness. -/
def hfStub : String → HFReply := fun _ => { ok := true, status := 200, body := HFBody.other }

/-! ## Helper lemmas -/

theorem Store.set_same (s : Store) (k : String) (v : RateLimitEntry) :
    (s.set k v) k = some v := by
  simp [Store.set]

theorem Store.set_ne (s : Store) (k q : String) (v : RateLimitEntry) (h : q ≠ k) :
    (s.set k v) q = s q := by
  simp [Store.set, h]

theorem cleanup_apply (now : Nat) (s : Store) (k : String) :
    (cleanupExpiredEntries now s) k =
      match s k with
      | none => none
      | some e => if e.resetAt < now then none else some e := rfl

theorem isRateLimited_fresh (now : Nat) (ip : String) (s : Store)
    (h : FreshStart s ip now) :
    isRateLimited now ip s = (false, s.set ip ⟨1, now + WINDOW_MS⟩) := by
  rcases h with h | ⟨e, he, hlt⟩
  · simp [isRateLimited, h]
  · simp [isRateLimited, he, hlt]

theorem isRateLimited_active (now : Nat) (ip : String) (s : Store) (e : RateLimitEntry)
    (he : s ip = some e) (hact : now ≤ e.resetAt) :
    isRateLimited now ip s =
      (decide (MAX_REQUESTS < e.count + 1), s.set ip ⟨e.count + 1, e.resetAt⟩) := by
  simp [isRateLimited, he, Nat.not_lt.mpr hact]

theorem isRateLimited_localRead (now : Nat) (ip : String) (s t : Store)
    (h : s ip = t ip) :
    (isRateLimited now ip s).1 = (isRateLimited now ip t).1 ∧
    (isRateLimited now ip s).2 ip = (isRateLimited now ip t).2 ip := by
  cases ht : t ip with
  | none =>
    have hs : s ip = none := h.trans ht
    simp [isRateLimited, hs, ht, Store.set]
  | some e =>
    have hs : s ip = some e := h.trans ht
    by_cases hlt : e.resetAt < now <;>
      simp [isRateLimited, hs, ht, hlt, Store.set]

theorem isRateLimited_frame (now : Nat) (ip q : String) (s : Store) (h : q ≠ ip) :
    (isRateLimited now ip s).2 q = s q := by
  cases hs : s ip with
  | none => simp [isRateLimited, hs, Store.set, h]
  | some e =>
    by_cases hlt : e.resetAt < now <;> simp [isRateLimited, hs, hlt, Store.set, h]

theorem runCalls_cons (t : Nat) (ts : List Nat) (ip : String) (s : Store) :
    runCalls (t :: ts) ip s =
      ((isRateLimited t ip s).1 :: (runCalls ts ip (isRateLimited t ip s).2).1,
       (runCalls ts ip (isRateLimited t ip s).2).2) := rfl

theorem runCalls_inWindow (ip : String) (r : Nat) :
    ∀ (ts : List Nat) (c : Nat) (s : Store), s ip = some ⟨c, r⟩ → (∀ t ∈ ts, t ≤ r) →
      (runCalls ts ip s).1 =
        (List.range ts.length).map (fun i => decide (MAX_REQUESTS < c + 1 + i)) ∧
      (runCalls ts ip s).2 ip = some ⟨c + ts.length, r⟩ := by
  intro ts
  induction ts with
  | nil =>
    intro c s hs _
    exact ⟨rfl, hs⟩
  | cons t ts ih =>
    intro c s hs hw
    have hstep : isRateLimited t ip s =
        (decide (MAX_REQUESTS < c + 1), s.set ip ⟨c + 1, r⟩) :=
      isRateLimited_active t ip s ⟨c, r⟩ hs (hw t (List.mem_cons_self t ts))
    have hset : (s.set ip ⟨c + 1, r⟩) ip = some ⟨c + 1, r⟩ := Store.set_same s ip _
    have hrest := ih (c + 1) (s.set ip ⟨c + 1, r⟩) hset
      (fun u hu => hw u (List.mem_cons_of_mem t hu))
    rw [runCalls_cons, hstep]
    constructor
    · show decide (MAX_REQUESTS < c + 1) :: (runCalls ts ip (s.set ip ⟨c + 1, r⟩)).1 = _
      rw [hrest.1]
      rw [List.length_cons, List.range_succ_eq_map, List.map_cons, List.map_map]
      congr 1
      apply List.map_congr_left
      intro i _
      exact decide_eq_decide.mpr (by omega)
    · show (runCalls ts ip (s.set ip ⟨c + 1, r⟩)).2 ip = _
      rw [hrest.2]
      simp [Nat.add_assoc, Nat.add_comm 1 ts.length]

/-! ## Claim theorems -/

/-- Claim C1: for every key whose window is freshly started, the first
`MAX_REQUESTS` (10) `isRateLimited` calls within that window are admitted
("not limited") and the `(MAX_REQUESTS + 1)`-th call within the same window
is rejected ("limited"). -/
theorem checkAndRecord_window_limit (ip : String) (s : Store) (t0 : Nat) (ts : List Nat)
    (hfresh : FreshStart s ip t0) (hlen : ts.length = MAX_REQUESTS)
    (hw : ∀ t ∈ ts, t ≤ t0 + WINDOW_MS) :
    (runCalls (t0 :: ts) ip s).1 = List.replicate MAX_REQUESTS false ++ [true] := by
  have hstep := isRateLimited_fresh t0 ip s hfresh
  have hset : (s.set ip ⟨1, t0 + WINDOW_MS⟩) ip = some ⟨1, t0 + WINDOW_MS⟩ :=
    Store.set_same s ip _
  have hrest := (runCalls_inWindow ip (t0 + WINDOW_MS) ts 1 _ hset hw).1
  rw [runCalls_cons, hstep]
  show false :: (runCalls ts ip (s.set ip ⟨1, t0 + WINDOW_MS⟩)).1 = _
  rw [hrest, hlen]
  decide

theorem checkAndRecord_window_limit_witness :
    FreshStart emptyStore ("1.2.3.4") 0 ∧
    (runCalls (0 :: List.replicate 10 0) ("1.2.3.4") emptyStore).1 =
      List.replicate MAX_REQUESTS false ++ [true] :=
  ⟨Or.inl rfl,
   checkAndRecord_window_limit ("1.2.3.4") emptyStore 0 (List.replicate 10 0)
     (Or.inl rfl) (by decide) (by decide)⟩

/-- Claim C2 (amended): the reset branch of `isRateLimited` fires exactly
when no entry exists or the current time is strictly past the entry's
`resetAt`; it then installs `{count: 1, resetAt: now + WINDOW_MS}` and
admits the call.  (At `now = resetAt` the code still counts the call
against the old window, unlike the claim's "at or past".) -/
theorem checkAndRecord_reset_strict (now : Nat) (ip : String) (s : Store)
    (h : FreshStart s ip now) :
    (isRateLimited now ip s).1 = false ∧
    (isRateLimited now ip s).2 ip = some ⟨1, now + WINDOW_MS⟩ := by
  rw [isRateLimited_fresh now ip s h]
  exact ⟨rfl, Store.set_same s ip _⟩

theorem checkAndRecord_reset_strict_witness :
    FreshStart emptyStore ("2.2.2.2") 5 ∧
    (isRateLimited 5 ("2.2.2.2") emptyStore).1 = false ∧
    (isRateLimited 5 ("2.2.2.2") emptyStore).2 ("2.2.2.2") = some ⟨1, 5 + WINDOW_MS⟩ :=
  ⟨Or.inl rfl, checkAndRecord_reset_strict 5 ("2.2.2.2") emptyStore (Or.inl rfl)⟩

/-- Counterexample to claim C2 as stated: with an entry whose window ends
exactly now (`now = resetAt = 60000`, "at" the window end) and `count = 10`,
the call is NOT admitted with a reset to `count = 1` — the code increments
to 11 and returns "limited". -/
theorem checkAndRecord_boundary_counterexample :
    (60000 : Nat) ≤ 60000 ∧
    (isRateLimited 60000 ("1.2.3.4") c2Store).1 = true ∧
    (isRateLimited 60000 ("1.2.3.4") c2Store).2 ("1.2.3.4") = some ⟨11, 60000⟩ := by
  decide

/-- Claim C3 (amended): after `cleanupExpiredEntries` at time `now`, a key
maps to an entry exactly when it mapped to that same entry before and the
entry's `resetAt` is at or after `now`; equivalently, an entry is removed
iff its `resetAt` is strictly before the sweep time, and every other entry
survives unchanged.  (An entry with `resetAt = now` is kept, unlike the
claim's "at or before".) -/
theorem sweepExpired_strict_characterization (now : Nat) (s : Store) (k : String)
    (e : RateLimitEntry) :
    (cleanupExpiredEntries now s) k = some e ↔ s k = some e ∧ now ≤ e.resetAt := by
  rw [cleanup_apply]
  cases hs : s k with
  | none => simp
  | some f =>
    by_cases h : f.resetAt < now
    · simp only [if_pos h]
      constructor
      · intro hfalse
        cases hfalse
      · rintro ⟨he, hle⟩
        injection he with he
        subst he
        omega
    · simp only [if_neg h]
      constructor
      · intro he
        injection he with he
        subst he
        exact ⟨rfl, Nat.not_lt.mp h⟩
      · rintro ⟨he, _⟩
        exact he

/-- Counterexample to claim C3 as stated: an entry whose window ends exactly
at the sweep time (`resetAt = now = 60000`, "at or before" the sweep time)
is NOT removed by `cleanupExpiredEntries`. -/
theorem sweepExpired_boundary_counterexample :
    (60000 : Nat) ≤ 60000 ∧
    (cleanupExpiredEntries 60000 c3Store) ("5.5.5.5") = some ⟨3, 60000⟩ := by
  decide

/-- Claim C4: for a key with an active (non-expired) entry, `isRateLimited`
increments the stored count by exactly 1 — also when the result is
"limited" — and the decision is exactly "new count exceeds MAX_REQUESTS",
so an over-limit count keeps growing instead of being capped. -/
theorem checkAndRecord_always_increments (now : Nat) (ip : String) (s : Store)
    (e : RateLimitEntry) (he : s ip = some e) (hact : now ≤ e.resetAt) :
    (isRateLimited now ip s).2 ip = some ⟨e.count + 1, e.resetAt⟩ ∧
    (isRateLimited now ip s).1 = decide (MAX_REQUESTS < e.count + 1) := by
  rw [isRateLimited_active now ip s e he hact]
  exact ⟨Store.set_same s ip _, rfl⟩

theorem checkAndRecord_always_increments_witness :
    c4Store ("3.3.3.3") = some ⟨15, 60000⟩ ∧ (100 : Nat) ≤ 60000 ∧
    (isRateLimited 100 ("3.3.3.3") c4Store).2 ("3.3.3.3") = some ⟨16, 60000⟩ ∧
    (isRateLimited 100 ("3.3.3.3") c4Store).1 = true :=
  ⟨by decide, by decide,
   (checkAndRecord_always_increments 100 ("3.3.3.3") c4Store ⟨15, 60000⟩
      (by decide) (by decide)).1,
   Eq.trans
     ((checkAndRecord_always_increments 100 ("3.3.3.3") c4Store ⟨15, 60000⟩
        (by decide) (by decide)).2)
     (by decide)⟩

/-- Claim C5: running the sweep at time `t1` and then `isRateLimited` for
any key at any time `t2 ≥ t1` yields the same decision and the same
resulting entry for that key as running `isRateLimited` alone on the
unswept table: the sweep never changes a rate-limiting decision. -/
theorem sweep_preserves_decisions (t1 t2 : Nat) (ip : String) (s : Store)
    (h12 : t1 ≤ t2) :
    (isRateLimited t2 ip (cleanupExpiredEntries t1 s)).1 = (isRateLimited t2 ip s).1 ∧
    (isRateLimited t2 ip (cleanupExpiredEntries t1 s)).2 ip = (isRateLimited t2 ip s).2 ip := by
  cases hs : s ip with
  | none =>
    have hc : (cleanupExpiredEntries t1 s) ip = s ip := by
      simp [cleanupExpiredEntries, hs]
    exact isRateLimited_localRead t2 ip _ s hc
  | some e =>
    by_cases hexp : e.resetAt < t1
    · have hc : (cleanupExpiredEntries t1 s) ip = none := by
        simp [cleanupExpiredEntries, hs, hexp]
      have h2 : e.resetAt < t2 := Nat.lt_of_lt_of_le hexp h12
      have hl := isRateLimited_fresh t2 ip (cleanupExpiredEntries t1 s) (Or.inl hc)
      have hr := isRateLimited_fresh t2 ip s (Or.inr ⟨e, hs, h2⟩)
      rw [hl, hr]
      exact ⟨rfl, by simp [Store.set]⟩
    · have hc : (cleanupExpiredEntries t1 s) ip = s ip := by
        simp [cleanupExpiredEntries, hs, hexp]
      exact isRateLimited_localRead t2 ip _ s hc

theorem sweep_preserves_decisions_witness :
    (2 : Nat) ≤ 5 ∧
    (isRateLimited 5 ("6.6.6.6") (cleanupExpiredEntries 2 c5Store)).1 =
      (isRateLimited 5 ("6.6.6.6") c5Store).1 ∧
    (isRateLimited 5 ("6.6.6.6") (cleanupExpiredEntries 2 c5Store)).2 ("6.6.6.6") =
      (isRateLimited 5 ("6.6.6.6") c5Store).2 ("6.6.6.6") :=
  ⟨by decide,
   (sweep_preserves_decisions 2 5 ("6.6.6.6") c5Store (by decide)).1,
   (sweep_preserves_decisions 2 5 ("6.6.6.6") c5Store (by decide)).2⟩

/-- Claim C6: distinct keys are independent — an `isRateLimited` call for
key `a` leaves the entry of any other key `b` untouched, and its decision
and its effect on `a` depend only on the table's value at `a` (so on any
table `t` agreeing with `s` at `a`, in particular one where `b` is
exhausted and one where it is absent, the outcome for `a` is the same). -/
theorem checkAndRecord_key_isolation (now : Nat) (a b : String) (s t : Store)
    (hab : a ≠ b) (hread : t a = s a) :
    (isRateLimited now a s).2 b = s b ∧
    (isRateLimited now a t).1 = (isRateLimited now a s).1 ∧
    (isRateLimited now a t).2 a = (isRateLimited now a s).2 a :=
  ⟨isRateLimited_frame now a b s (Ne.symm hab),
   (isRateLimited_localRead now a t s hread).1,
   (isRateLimited_localRead now a t s hread).2⟩

theorem checkAndRecord_key_isolation_witness :
    ("17.17.17.17" : String) ≠ "18.18.18.18" ∧
    (isRateLimited 0 ("17.17.17.17") c6StoreB).2 ("18.18.18.18") = c6StoreB ("18.18.18.18") ∧
    (isRateLimited 0 ("17.17.17.17") emptyStore).1 = (isRateLimited 0 ("17.17.17.17") c6StoreB).1 :=
  ⟨by decide,
   (checkAndRecord_key_isolation 0 ("17.17.17.17") ("18.18.18.18") c6StoreB emptyStore
      (by decide) (by decide)).1,
   (checkAndRecord_key_isolation 0 ("17.17.17.17") ("18.18.18.18") c6StoreB emptyStore
      (by decide) (by decide)).2.1⟩

/-- Claim C7 (amended): the key the endpoint passes to the limiter is the
first comma-separated value of `x-forwarded-for`, trimmed — possibly the
EMPTY string — when that header is present and non-empty; else the
`x-real-ip` value when present and non-empty; else the sentinel
"unknown". -/
theorem getClientIp_characterization (fwd rip : Option String) :
    (∀ f, fwd = some f → f ≠ "" → getClientIp fwd rip = jsTrim (jsSplitFirst f)) ∧
    ((fwd = none ∨ fwd = some ("")) → ∀ r, rip = some r → r ≠ "" →
      getClientIp fwd rip = r) ∧
    ((fwd = none ∨ fwd = some ("")) → (rip = none ∨ rip = some ("")) →
      getClientIp fwd rip = "unknown") := by
  refine ⟨?_, ?_, ?_⟩
  · intro f hf hne
    subst hf
    simp [getClientIp, hne]
  · rintro (h | h) r hr hne <;> subst h <;> subst hr <;> simp [getClientIp, hne]
  · rintro (h | h) (h2 | h2) <;> subst h <;> subst h2 <;> simp [getClientIp]

theorem getClientIp_characterization_witness :
    getClientIp (some ("198.51.100.9, 10.0.0.1")) none =
      jsTrim (jsSplitFirst ("198.51.100.9, 10.0.0.1")) ∧
    getClientIp (some ("198.51.100.9, 10.0.0.1")) none = "198.51.100.9" :=
  ⟨(getClientIp_characterization (some ("198.51.100.9, 10.0.0.1")) none).1 _ rfl (by decide),
   by decide⟩

/-- Counterexample to claim C7 as stated: the derived key is NOT always
non-empty — with `x-forwarded-for: ",203.0.113.7"` the first
comma-separated value trims to the empty string, which is what the endpoint
passes to the limiter. -/
theorem getClientIp_empty_key_counterexample :
    getClientIp (some (",203.0.113.7")) none = "" := by
  decide

/-- Claim C8: `isRateLimited` is total — for every time, key and table it
returns a boolean decision, and it leaves the key with a well-formed entry
(both fields set) in the table. -/
theorem checkAndRecord_total (now : Nat) (ip : String) (s : Store) :
    ((isRateLimited now ip s).1 = true ∨ (isRateLimited now ip s).1 = false) ∧
    ∃ e : RateLimitEntry, (isRateLimited now ip s).2 ip = some e := by
  constructor
  · cases (isRateLimited now ip s).1 <;> simp
  · cases hs : s ip with
    | none =>
      exact ⟨_, by rw [isRateLimited_fresh now ip s (Or.inl hs)]; exact Store.set_same s ip _⟩
    | some e =>
      by_cases hlt : e.resetAt < now
      · exact ⟨_, by
          rw [isRateLimited_fresh now ip s (Or.inr ⟨e, hs, hlt⟩)]
          exact Store.set_same s ip _⟩
      · exact ⟨_, by
          rw [isRateLimited_active now ip s e hs (Nat.not_lt.mp hlt)]
          exact Store.set_same s ip _⟩

/-- Claim C9: whenever `isRateLimited` answers "limited" for the derived
client key, the endpoint short-circuits with HTTP 429 and the exact error
body, performing no body validation and no downstream Hugging Face call;
the table is left as the limiter left it. -/
theorem post_rateLimited_short_circuit (now : Nat) (req : ApiRequest) (s : Store)
    (tok : Option String) (hf : String → HFReply)
    (h : (isRateLimited now (getClientIp req.forwardedFor req.realIp) s).1 = true) :
    (POST now req s tok hf).1 =
      { status := 429, error := some ("Too many requests. Please try again later."),
        summary := none, hfCalled := false, validated := false } ∧
    (POST now req s tok hf).2 =
      (isRateLimited now (getClientIp req.forwardedFor req.realIp) s).2 := by
  unfold POST
  simp [h]

theorem post_rateLimited_short_circuit_witness :
    (isRateLimited 0 (getClientIp c9Req.forwardedFor c9Req.realIp) c9Store).1 = true ∧
    (POST 0 c9Req c9Store (some ("secret-token")) hfStub).1 =
      { status := 429, error := some ("Too many requests. Please try again later."),
        summary := none, hfCalled := false, validated := false } :=
  ⟨by decide,
   (post_rateLimited_short_circuit 0 c9Req c9Store (some ("secret-token")) hfStub
      (by decide)).1⟩

/-- Claim C10: the table invariant "every entry has count at least 1" is
preserved by `isRateLimited` (for any key and time) and by
`cleanupExpiredEntries` (at any time). -/
theorem table_invariant_preserved (now : Nat) (ip : String) (s : Store)
    (hinv : TableInv s) :
    TableInv ((isRateLimited now ip s).2) ∧ TableInv (cleanupExpiredEntries now s) := by
  constructor
  · intro k e hk
    by_cases hkip : k = ip
    · subst hkip
      cases hs : s k with
      | none =>
        have h2 : (isRateLimited now k s).2 k = some ⟨1, now + WINDOW_MS⟩ := by
          rw [isRateLimited_fresh now k s (Or.inl hs)]
          exact Store.set_same s k _
        rw [h2] at hk
        injection hk with hk
        subst hk
        exact Nat.le_refl 1
      | some f =>
        by_cases hlt : f.resetAt < now
        · have h2 : (isRateLimited now k s).2 k = some ⟨1, now + WINDOW_MS⟩ := by
            rw [isRateLimited_fresh now k s (Or.inr ⟨f, hs, hlt⟩)]
            exact Store.set_same s k _
          rw [h2] at hk
          injection hk with hk
          subst hk
          exact Nat.le_refl 1
        · have h2 : (isRateLimited now k s).2 k = some ⟨f.count + 1, f.resetAt⟩ := by
            rw [isRateLimited_active now k s f hs (Nat.not_lt.mp hlt)]
            exact Store.set_same s k _
          rw [h2] at hk
          injection hk with hk
          subst hk
          exact Nat.le_add_left 1 f.count
    · rw [isRateLimited_frame now ip k s hkip] at hk
      exact hinv k e hk
  · intro k e hk
    cases hs : s k with
    | none =>
      have h2 : (cleanupExpiredEntries now s) k = none := by
        simp [cleanupExpiredEntries, hs]
      rw [h2] at hk
      cases hk
    | some f =>
      by_cases hlt : f.resetAt < now
      · have h2 : (cleanupExpiredEntries now s) k = none := by
          simp [cleanupExpiredEntries, hs, hlt]
        rw [h2] at hk
        cases hk
      · have h2 : (cleanupExpiredEntries now s) k = some f := by
          simp [cleanupExpiredEntries, hs, hlt]
        rw [h2] at hk
        injection hk with hk
        subst hk
        exact hinv k f hs

theorem table_invariant_preserved_witness :
    TableInv emptyStore ∧
    TableInv ((isRateLimited 7 ("4.4.4.4") emptyStore).2) ∧
    TableInv (cleanupExpiredEntries 7 emptyStore) :=
  ⟨fun k e h => by simp [emptyStore] at h,
   (table_invariant_preserved 7 ("4.4.4.4") emptyStore
      (fun k e h => by simp [emptyStore] at h)).1,
   (table_invariant_preserved 7 ("4.4.4.4") emptyStore
      (fun k e h => by simp [emptyStore] at h)).2⟩
